import Mathlib

/-!
Verification development for the HPC_phi_6 pipeline (file src/HPC_phi_6.py).

The repository simulates a two-dimensional mesh of independent SASLIF
(stochastic adaptive spiking leaky integrate-and-fire) neurons and analyses
the resulting spike logs.  All mesh operations in the source are elementwise
over the grid (the numba ufuncs act cell by cell and no cell ever reads
another cell's state), so the simulation engine is embedded here at the
granularity of a single mesh cell; a grid run is the independent product of
cell runs.  float32 arithmetic is embedded as exact rational arithmetic.

The elementwise kernels imported from `numba_ufuncs` (ornstein_uhlenbeck,
subthresh_SASLIF_integrate, stack_topography_flatten, condit_add,
condit_assign_bool, condit_assign_num, hadamard, scalar_add, integer_add)
are part of the repository but their module is not among the provided source
files; where a definition below depends on them it is modelled from the
specification text and says so in its doc comment.  Everything else is
translated directly from src/HPC_phi_6.py.
-/

/-- Modelled from the spec: the `ornstein_uhlenbeck` elementwise kernel from
the missing `numba_ufuncs` module.  Spec 4.1 step 2: relax `xi` toward the
configured mean at a rate set by the noise time constant and add a stochastic
increment scaled by the Wiener coefficient (the caller premultiplies the
volatility by `sqrt(dt * time_constant)`, src line 544). -/
def ornstein_uhlenbeck (xi mu tau dt wc rand : ℚ) : ℚ :=
  xi + dt / tau * (mu - xi) + wc * rand

/-- Modelled from the spec: the `subthresh_SASLIF_integrate` elementwise
kernel from the missing `numba_ufuncs` module.  Spec 4.1 step 4: for
non-spiking cells (update mask true) move `V` toward `rest_V` at a rate set
by the membrane time constant and add the forcing minus the adaptation
current plus the noise term; cells with mask false keep their voltage. -/
def subthresh_SASLIF_integrate (V : ℚ) (upd : Bool) (dt rest_V forcing W tau xi : ℚ) : ℚ :=
  if upd then V + dt * ((rest_V - V) + forcing - W + xi) / tau else V

/-- Per-cell scalar parameters of one simulation run (src lines 494-513).
`adaptation_decay_rate` is the precomputed `adaptation_decay_constant /
adaptation_time_constant` (src line 543) and `weiner_coefficient` the
precomputed `OU_sigma * sqrt(dt * OU_time_constant)` (src line 544), so zero
noise volatility corresponds to `weiner_coefficient = 0`.
`refractory_period_length` is `int(refractory_period_duration / dt)`
(src line 523). -/
structure SimParams where
  dt : ℚ
  rest_V : ℚ
  spike_V : ℚ
  neuron_threshold : ℚ
  neuron_time_constant : ℚ
  adaptation_response_constant : ℚ
  adaptation_decay_rate : ℚ
  OU_mu : ℚ
  OU_time_constant : ℚ
  weiner_coefficient : ℚ
  refractory_period_length : ℕ

/-- State of one mesh cell: voltage, adaptation, coloured noise, spiking
flag and refractory counter (src lines 526-533).  The refractory counter is
stored as a float32 in the source but only ever holds the naturals produced
by `condit_add ... 1` and `condit_assign_num ... 0`, so it is embedded as ℕ. -/
structure CellState where
  V : ℚ
  W : ℚ
  xi : ℚ
  spike : Bool
  refrac : ℕ

/-- Initial cell state (src lines 526-550): voltage at `rest_V`, `W` and
`xi` zero, spiking flag recomputed from the threshold comparison, and the
refractory counter incremented once where the cell starts spiking then reset
where it exceeds the refractory length. -/
def initState (p : SimParams) : CellState :=
  let spike0 : Bool := !(decide (p.rest_V < p.neuron_threshold))
  let r0 : ℕ := if spike0 && decide ((0 : ℕ) ≤ p.refractory_period_length) then 1 else 0
  let r1 : ℕ := if r0 > p.refractory_period_length then 0 else r0
  ⟨p.rest_V, 0, 0, spike0, r1⟩

/-- One loop iteration of the simulation engine for one cell (body of the
`for step in range(...)` loops, src lines 555-595 and 671-711): adaptation
update, Ornstein-Uhlenbeck update, conditional voltage integration, spike
clamping, refractory reset, threshold reclassification and refractory
increment.  `f` is the forcing value for this step and `r` the random draw.
The returned Bool is true when the cell newly entered the spike state
(spiking with refractory counter 0, src line 587), i.e. when this step index
is logged. -/
def stepCell (p : SimParams) (f r : ℚ) (s : CellState) : CellState × Bool :=
  let W1 := if s.spike then s.W + p.dt * p.adaptation_response_constant else s.W
  let W2 := W1 + -(p.dt * p.adaptation_decay_rate) * W1
  let xiNew := ornstein_uhlenbeck s.xi p.OU_mu p.OU_time_constant p.dt p.weiner_coefficient r
  let Vint := subthresh_SASLIF_integrate s.V (!s.spike) p.dt p.rest_V f W2
      p.neuron_time_constant xiNew
  let V1 := if s.spike && decide (s.refrac ≤ p.refractory_period_length) then p.spike_V else Vint
  let V2 := if s.spike && decide (s.refrac > p.refractory_period_length) then p.rest_V else V1
  let r1 := if s.refrac > p.refractory_period_length then 0 else s.refrac
  let spikeNew : Bool := !(decide (V2 < p.neuron_threshold))
  let newlySpiked : Bool := spikeNew && (r1 == 0)
  let r2 := if spikeNew && decide (r1 ≤ p.refractory_period_length) then r1 + 1 else r1
  (⟨V2, W2, xiNew, spikeNew, r2⟩, newlySpiked)

/-- Maximum number of spikes supported per neuron (src lines 538, 653). -/
def stack_height : ℕ := 5000

/-- Modelled from the spec: the spike-stack write performed through the
missing `stack_topography_flatten` and `integer_add` kernels (src lines
587-592).  Spec 4.1 step 7 and 4.2: append the step index at the current
occupancy if occupancy is below capacity; entries beyond capacity are
dropped, not overwritten.  The per-cell log is kept as the list of written
entries, whose length is the occupancy. -/
def logAppend (log : List ℕ) (stepIndex : ℕ) : List ℕ :=
  if log.length < stack_height then log ++ [stepIndex] else log

/-- Run the per-step loop over a given list of step indices, threading the
cell state and the capacity-bounded spike log. -/
def runSteps (p : SimParams) (f r : ℕ → ℚ) : List ℕ → CellState → List ℕ → CellState × List ℕ
  | [], s, log => (s, log)
  | t :: rest, s, log =>
      runSteps p f r rest (stepCell p (f t) (r t) s).1
        (if (stepCell p (f t) (r t) s).2 then logAppend log t else log)

/-- Same loop with an unbounded spike log (no capacity guard); used to state
that the bounded log is exactly the first `stack_height` spikes. -/
def runStepsU (p : SimParams) (f r : ℕ → ℚ) : List ℕ → CellState → List ℕ → CellState × List ℕ
  | [], s, log => (s, log)
  | t :: rest, s, log =>
      runStepsU p f r rest (stepCell p (f t) (r t) s).1
        (if (stepCell p (f t) (r t) s).2 then log ++ [t] else log)

/-- Step indices of the trace-preserving variants: Python `range(1,
num_timesteps)` (src lines 555, 786, 1006). -/
def pyRange1 (T : ℤ) : List ℕ := List.range' 1 (T.toNat - 1)

/-- Step indices of the ARC (trace-free) variants: Python
`range(num_timesteps)` (src lines 671, 897, 1116). -/
def pyRange0 (T : ℤ) : List ℕ := List.range T.toNat

/-- One cell of the trace-preserving simulation variants
(HPC_phi_6_sim_forcing_subspace and its neurodynamic/stochastic siblings):
final state and capacity-bounded spike log over `num_timesteps = T`. -/
def simCellTrace (p : SimParams) (f r : ℕ → ℚ) (T : ℤ) : CellState × List ℕ :=
  runSteps p f r (pyRange1 T) (initState p) []

/-- One cell of the ARC simulation variants
(HPC_phi_6_sim_forcing_subspace_ARC and siblings). -/
def simCellARC (p : SimParams) (f r : ℕ → ℚ) (T : ℤ) : CellState × List ℕ :=
  runSteps p f r (pyRange0 T) (initState p) []

/-- Trace-preserving cell run with the capacity guard removed. -/
def simCellTraceU (p : SimParams) (f r : ℕ → ℚ) (T : ℤ) : CellState × List ℕ :=
  runStepsU p f r (pyRange1 T) (initState p) []

/-- ARC cell run with the capacity guard removed. -/
def simCellARCU (p : SimParams) (f r : ℕ → ℚ) (T : ℤ) : CellState × List ℕ :=
  runStepsU p f r (pyRange0 T) (initState p) []

/-- Per-step forcing of the forcing-subspace variants (src lines 558-560):
the two mesh amplitudes times the theta and interference oscillator values
at this step.  A zero-amplitude cell receives zero forcing whatever the
oscillator values are. -/
def forcingOfAmplitudes (aTheta aInterf : ℚ) (sTheta sInterf : ℕ → ℚ) (t : ℕ) : ℚ :=
  aTheta * sTheta t + aInterf * sInterf t

/-- A concrete deterministic parameter set: zero forcing amplitude, zero
noise volatility (weiner_coefficient = 0), but nonzero Ornstein-Uhlenbeck
mean, which deterministically drives the noise state to 2 and the voltage
across the threshold 1.  dt = 1, rest_V = 0, spike_V = 5, threshold = 1,
membrane and noise time constants 1, no adaptation, refractory length 1. -/
def muDriftParams : SimParams :=
  ⟨1, 0, 5, 1, 1, 0, 0, 2, 1, 0, 1⟩

/-- A concrete parameter set with zero forcing amplitude, zero volatility
and zero Ornstein-Uhlenbeck mean. -/
def quietParams : SimParams :=
  ⟨1, 0, 5, 1, 1, 0, 0, 0, 1, 0, 1⟩

/-- First differences of a series (np.diff, src line 1183). -/
def diffList (xs : List ℚ) : List ℚ :=
  (xs.zip xs.tail).map (fun q => q.2 - q.1)

/-- Cycle boundary indices (src lines 1183-1184): the indices at which the
first difference of the phase series is negative, in ascending order. -/
def cycleBoundaryIndices (phases : List ℚ) : List ℕ :=
  (List.range (diffList phases).length).filter (fun i => decide ((diffList phases).getD i 0 < 0))

/-- Whether slice `i` of the spike stack along the capacity axis is zero for
every cell (src line 1188, `np.all(spike_stack[:, :, slice_index] == 0)`).
A cell column is represented by its written entries; positions beyond them
hold the sentinel 0 of the zero-initialized stack. -/
def sliceAllZero (stack : List (List ℕ)) (i : ℕ) : Bool :=
  stack.all (fun col => col.getD i 0 == 0)

/-- The truncation index of the analysis stage (src lines 1187-1190): the
first slice index along the stack's third (capacity) axis at which every
cell's entry is zero; `none` when no such slice exists below `H`
(`spike_stack.shape[2]`), in which case the Python loop leaves
`truncation_index` unbound and the subsequent use raises NameError. -/
def truncationIndex (H : ℕ) (stack : List (List ℕ)) : Option ℕ :=
  (List.range H).find? (sliceAllZero stack)

/-- Largest entry occurring anywhere in the spike stack. -/
def stackMaxEntry (stack : List (List ℕ)) : ℕ :=
  (stack.map (fun col => col.foldr max 0)).foldr max 0

/-- Modelled from the spec, for comparison with `truncationIndex` (claim C3):
the first TIME-STEP index at which all cells report zero further spikes,
i.e. the least `t` such that no cell has a logged spike index at or beyond
`t`.  It exists below `stackMaxEntry stack + 2`. -/
def firstQuietTimestep (stack : List (List ℕ)) : Option ℕ :=
  (List.range (stackMaxEntry stack + 2)).find?
    (fun t => stack.all (fun col => col.all (fun v => decide (v < t))))

/-- Arithmetic mean (np.mean, src line 1555). -/
def listMean (data : List ℚ) : ℚ := data.sum / (data.length : ℚ)

/-- Median (np.median, src line 1557): middle element of the sorted data,
or the average of the two middle elements for even length. -/
def listMedian (data : List ℚ) : ℚ :=
  let s := data.insertionSort (· ≤ ·)
  let n := s.length
  if n % 2 = 1 then s.getD (n / 2) 0 else (s.getD (n / 2 - 1) 0 + s.getD (n / 2) 0) / 2

/-- The central-tendency selector (src lines 1553-1577).  The multi-sample
density-mode branch fits a scikit-learn Gaussian kernel density with
leave-one-out cross-validated bandwidth and takes the argmax over a grid on
[0, 2pi); that external-library computation is abstracted as the `kdeFit`
argument.  A single sample is returned as-is without fitting (src lines
1559-1560); unknown technique strings fall back to the mean (src line
1576). -/
def centralTendencySelector (kdeFit : List ℚ → ℚ) (data : List ℚ) (tech : String) : ℚ :=
  if tech == "mean" then listMean data
  else if tech == "median" then listMedian data
  else if tech == "KDE" then
    (if data.length == 1 then data.getD 0 0 else kdeFit data)
  else listMean data

/-- Membership of a spike index in cycle `i` (src lines 1203-1212): cycle 0
is everything before the first boundary, interior cycles are half-open
boundary windows, and the last cycle is everything from the last boundary
on.  Only used when `bounds` is nonempty (otherwise the source raises
IndexError at `cycle_boundary_indices[0]`). -/
def windowPred (bounds : List ℕ) (i v : ℕ) : Bool :=
  if i == 0 then decide (v < bounds.getD 0 0)
  else if i < bounds.length then
    decide (bounds.getD (i - 1) 0 ≤ v) && decide (v < bounds.getD i 0)
  else decide (bounds.getD (i - 1) 0 ≤ v)

/-- Representative phase of one cell on one cycle (src lines 1199-1214):
gather the phases at the cell's non-sentinel spike indices falling in the
cycle window and reduce them with the central-tendency selector; cycles with
no qualifying spikes keep the sentinel 0. -/
def cellCyclePhi (kdeFit : List ℚ → ℚ) (tech : String) (phases : List ℚ) (bounds : List ℕ)
    (col : List ℕ) (i : ℕ) : ℚ :=
  let idxs := col.filter (fun v => (v != 0) && windowPred bounds i v)
  if idxs.isEmpty then 0
  else centralTendencySelector kdeFit (idxs.map (fun v => phases.getD v 0)) tech

/-- The phase-cycle segmentation stage HPC_phi_phase_analysis (src lines
1167-1218) downstream of the phase preprocessing, over an already extracted
phase series: find cycle boundaries, truncate the spike stack at the first
all-zero capacity slice, and build the cycle-phase block of
`len(cycle_boundary_indices) + 1` cycles per cell.  Returns `none` where the
source raises (NameError when no all-zero slice exists below `H`, IndexError
when there are no cycle boundaries). -/
def phaseAnalysisQ (kdeFit : List ℚ → ℚ) (tech : String) (phases : List ℚ)
    (stack : List (List ℕ)) (H : ℕ) : Option (List (List ℚ) × List ℕ) :=
  match truncationIndex H stack with
  | none => none
  | some ti =>
      if (cycleBoundaryIndices phases).isEmpty then none
      else
        some ((stack.map (fun col => col.take ti)).map (fun col =>
          (List.range ((cycleBoundaryIndices phases).length + 1)).map
            (cellCyclePhi kdeFit tech phases (cycleBoundaryIndices phases) col)),
          cycleBoundaryIndices phases)

/-- Per-cell RMQ (src lines 1264-1267): take the last `n` cycle phases,
mask sentinel zeros, reverse the cycle order, take first differences where
both operands are unmasked, and average them; `none` when every difference
is masked (np.ma.mean of a fully masked axis is masked). -/
def cellRMQ (phis : List ℚ) (n : ℕ) : Option ℚ :=
  let slice := phis.drop (phis.length - n)
  let flipped := slice.reverse
  let diffs := (flipped.zip flipped.tail).filterMap
    (fun q => if q.1 ≠ 0 ∧ q.2 ≠ 0 then some (q.2 - q.1) else none)
  if diffs.isEmpty then none else some (listMean diffs)

/-- The dynamically typed `num_cycles` analysis specification: an integer or
a string such as "all". -/
inductive NumCyclesArg
  | int (n : ℤ)
  | str (s : String)

/-- HPC_phi_compute_RMQ (src lines 1247-1269) on a block with `C` cycles per
cell.  Python evaluates `num_cycles <= 0` before `num_cycles == 'all'`
(src line 1257); when `num_cycles` is a string this comparison with an int
raises TypeError, so the string branch never computes.  For integers,
non-positive values select all cycles and the count is clamped to the number
available (src line 1261). -/
def HPC_phi_compute_RMQ (arg : NumCyclesArg) (C : ℕ) (block : List (List ℚ)) :
    Except String (List (Option ℚ)) :=
  match arg with
  | .str _ => .error "TypeError: str and int are not comparable"
  | .int n =>
      let n1 : ℤ := if n ≤ 0 then (C : ℤ) else n
      let eff : ℕ := min n1.toNat C
      .ok (block.map (fun phis => cellRMQ phis eff))

/-- Truncation toward zero, Python `int()` applied to a ratio. -/
def ratTrunc (q : ℚ) : ℤ := if q < 0 then ⌈q⌉ else ⌊q⌋

/-- The configuration fields involved in the pipeline's fail-fast behaviour:
`dt`, `simulation_duration` and the number of parameter subsets added before
`execute_pipeline` is called. -/
structure PipelineCfg where
  dt : ℚ
  duration : ℚ
  numSubsets : ℕ

/-- The pipeline's validation-and-run path (PipelineManager.__init__ line 38
and execute_pipeline lines 159-178): constructing the manager computes
`num_timesteps = int(simulation_duration / dt)`, raising ZeroDivisionError
when `dt = 0`; `execute_pipeline` raises iff the number of parameter subsets
differs from 2 (src lines 160-161); otherwise the simulation itself runs
over `range(int(duration / dt))` steps (ARC path shown; a negative or zero
count simply yields an empty loop, no error). -/
def runPipelineModel (cfg : PipelineCfg) (p : SimParams) (f r : ℕ → ℚ) :
    Except String (List ℕ) :=
  if cfg.dt = 0 then Except.error "ZeroDivisionError"
  else if cfg.numSubsets ≠ 2 then Except.error "Must pass 2 parameter subsets"
  else Except.ok (simCellARC p f r (ratTrunc (cfg.duration / cfg.dt))).2

/-- The wrap-into-[0, 2pi) adjustment applied twice in the phase
preprocessing (src lines 1180 and 1182). -/
noncomputable def wrapTwoPi (x : ℝ) : ℝ := if x < 0 then x + 2 * Real.pi else x

/-- Phase preprocessing of one sample of the analytic signal (src lines
1179-1182): atan2 output shifted into [0, 2pi), rotated by -3pi/2, then
re-wrapped into [0, 2pi). -/
noncomputable def phasePreprocess (x : ℝ) : ℝ :=
  wrapTwoPi (wrapTwoPi x - 3 * Real.pi / 2)

/-- The instantaneous phase time series (src lines 1179-1182):
`atan2(imag, real)` of each analytic-signal sample (Complex.arg), shifted,
rotated and re-wrapped. -/
noncomputable def thetaPhaseSeries (analytic : List ℂ) : List ℝ :=
  analytic.map (fun z => phasePreprocess (Complex.arg z))

theorem logAppend_take (u : List ℕ) (t : ℕ) :
    logAppend (u.take stack_height) t = (u ++ [t]).take stack_height := by
  unfold logAppend
  rcases Nat.lt_or_ge u.length stack_height with hl | hl
  · rw [List.take_of_length_le (Nat.le_of_lt hl), if_pos hl,
      List.take_of_length_le (by simpa using hl)]
  · have hlen : (u.take stack_height).length = stack_height := by
      rw [List.length_take]; exact Nat.min_eq_left hl
    rw [if_neg (by omega), List.take_append_of_le_length hl]

theorem runSteps_eq_take (p : SimParams) (f r : ℕ → ℚ) :
    ∀ (steps : List ℕ) (s : CellState) (u : List ℕ),
      runSteps p f r steps s (u.take stack_height) =
        ((runStepsU p f r steps s u).1, (runStepsU p f r steps s u).2.take stack_height) := by
  intro steps
  induction steps with
  | nil => intro s u; rfl
  | cons t rest ih =>
      intro s u
      simp only [runSteps, runStepsU]
      cases h2 : (stepCell p (f t) (r t) s).2
      · simp only [Bool.false_eq_true, if_neg, ite_false]
        exact ih _ u
      · simp only [ite_true]
        rw [logAppend_take]
        exact ih _ (u ++ [t])

/-- C2: a newly detected spike is appended to a cell's spike log only while
the occupancy is strictly below the capacity `stack_height = 5000`; hence
the bounded log of every run (trace-preserving or ARC) is exactly the first
5000 spikes of the unbounded spike sequence — occupancy never exceeds the
capacity, and spikes beyond it are dropped without overwriting earlier
entries. -/
theorem spike_log_capacity_bound (p : SimParams) (f r : ℕ → ℚ) (T : ℤ) :
    (simCellTrace p f r T).2 = (simCellTraceU p f r T).2.take stack_height ∧
    (simCellTrace p f r T).2.length ≤ stack_height ∧
    (simCellARC p f r T).2 = (simCellARCU p f r T).2.take stack_height ∧
    (simCellARC p f r T).2.length ≤ stack_height := by
  have h1 : (simCellTrace p f r T).2 = (simCellTraceU p f r T).2.take stack_height :=
    congrArg Prod.snd (runSteps_eq_take p f r (pyRange1 T) (initState p) [])
  have h2 : (simCellARC p f r T).2 = (simCellARCU p f r T).2.take stack_height :=
    congrArg Prod.snd (runSteps_eq_take p f r (pyRange0 T) (initState p) [])
  refine ⟨h1, ?_, h2, ?_⟩
  · rw [h1, List.length_take]; exact Nat.min_le_left _ _
  · rw [h2, List.length_take]; exact Nat.min_le_left _ _

/-- C1: evaluating both execution modes of the forcing-subspace engine on
the same valid configuration and the same random draws.  The trace-preserving
variant iterates `range(1, num_timesteps)` while the ARC variant iterates
`range(num_timesteps)`, so with `num_timesteps = 5` the former logs spikes
at steps 1 and 4 while the latter logs 0 and 3: the SpikeLog contents are not
bit-identical, contradicting both engines' claimed interchangeability.  The
configuration is deterministic (zero forcing amplitudes, zero noise
volatility), so the random draws trivially agree. -/
theorem trace_and_ARC_spikelogs_diverge :
    (simCellTrace muDriftParams (fun _ => (0 : ℚ)) (fun _ => (0 : ℚ)) 5).2 = [1, 4] ∧
    (simCellARC muDriftParams (fun _ => (0 : ℚ)) (fun _ => (0 : ℚ)) 5).2 = [0, 3] := by
  with_unfolding_all decide

/-- C7 counterexample: a cell with zero forcing amplitude (both mesh
amplitudes 0), zero noise volatility (weiner_coefficient 0) and
`rest_V < neuron_threshold`, whose Ornstein-Uhlenbeck mean is 2: the noise
state relaxes to the mean deterministically, drives the voltage over
threshold, and the cell spikes at steps 1 and 4 of a 5-step run — the spike
log does not stay empty. -/
theorem zero_volatility_nonzero_mean_spikes :
    muDriftParams.weiner_coefficient = 0 ∧
    muDriftParams.rest_V < muDriftParams.neuron_threshold ∧
    (simCellTrace muDriftParams
        (forcingOfAmplitudes 0 0 (fun _ => 1) (fun _ => 1)) (fun _ => (0 : ℚ)) 5).2 = [1, 4] ∧
    (simCellTrace muDriftParams
        (forcingOfAmplitudes 0 0 (fun _ => 1) (fun _ => 1)) (fun _ => (0 : ℚ)) 5).1.spike = true := by
  with_unfolding_all decide

theorem quietStep (p : SimParams) (rv : ℚ)
    (hw : p.weiner_coefficient = 0) (hm : p.OU_mu = 0)
    (hrest : p.rest_V < p.neuron_threshold) :
    stepCell p 0 rv (initState p) = (initState p, false) := by
  have hd : decide (p.rest_V < p.neuron_threshold) = true := decide_eq_true hrest
  simp [stepCell, initState, ornstein_uhlenbeck, subthresh_SASLIF_integrate, hw, hm, hd]

theorem quietRun (p : SimParams) (f r : ℕ → ℚ)
    (hw : p.weiner_coefficient = 0) (hm : p.OU_mu = 0) (hf : ∀ t, f t = 0)
    (hrest : p.rest_V < p.neuron_threshold) :
    ∀ (steps log0 : List ℕ),
      runSteps p f r steps (initState p) log0 = (initState p, log0) := by
  intro steps
  induction steps with
  | nil => intro log0; rfl
  | cons t rest ih =>
      intro log0
      have hq := quietStep p (r t) hw hm hrest
      simp only [runSteps, hf t, hq]
      exact ih log0

/-- C7 (amended): a cell with zero forcing amplitude, zero noise volatility
AND zero Ornstein-Uhlenbeck mean, starting below threshold
(`rest_V < neuron_threshold`), stays in its initial non-spiking state after
every prefix of the step loop, and its SpikeLog stays empty for every run
length. -/
theorem quiet_cell_never_spikes (p : SimParams) (f r : ℕ → ℚ)
    (hw : p.weiner_coefficient = 0) (hm : p.OU_mu = 0) (hf : ∀ t, f t = 0)
    (hrest : p.rest_V < p.neuron_threshold) :
    (initState p).spike = false ∧
    (∀ steps log0 : List ℕ, runSteps p f r steps (initState p) log0 = (initState p, log0)) ∧
    (∀ T : ℤ, (simCellTrace p f r T).2 = []) := by
  refine ⟨?_, quietRun p f r hw hm hf hrest, ?_⟩
  · simp [initState, decide_eq_true hrest]
  · intro T
    have h := quietRun p f r hw hm hf hrest (pyRange1 T) []
    unfold simCellTrace
    rw [h]

theorem quiet_cell_never_spikes_witness :
    (simCellTrace quietParams (fun _ => (0 : ℚ)) (fun _ => (0 : ℚ)) 4).2 = [] :=
  (quiet_cell_never_spikes quietParams (fun _ => (0 : ℚ)) (fun _ => (0 : ℚ))
    rfl rfl (fun _ => rfl) (by norm_num [quietParams])).2.2 4

theorem logAppend_subset {log : List ℕ} {t v : ℕ} (h : v ∈ logAppend log t) :
    v ∈ log ∨ v = t := by
  unfold logAppend at h
  split_ifs at h
  · rcases List.mem_append.mp h with h1 | h1
    · exact Or.inl h1
    · exact Or.inr (List.mem_singleton.mp h1)
  · exact Or.inl h

theorem runSteps_log_mem (p : SimParams) (f r : ℕ → ℚ) :
    ∀ (steps : List ℕ) (s : CellState) (log : List ℕ) (v : ℕ),
      v ∈ (runSteps p f r steps s log).2 → v ∈ log ∨ v ∈ steps := by
  intro steps
  induction steps with
  | nil => intro s log v h; exact Or.inl h
  | cons t rest ih =>
      intro s log v h
      simp only [runSteps] at h
      rcases ih _ _ v h with hl | hr
      · cases hb : (stepCell p (f t) (r t) s).2
        · rw [hb] at hl
          simp only [Bool.false_eq_true, ite_false] at hl
          exact Or.inl hl
        · rw [hb] at hl
          simp only [ite_true] at hl
          rcases logAppend_subset hl with h1 | h1
          · exact Or.inl h1
          · exact Or.inr (by rw [h1]; exact List.mem_cons_self t rest)
      · exact Or.inr (List.mem_cons_of_mem t hr)

/-- C10: in the trace-preserving simulation variants the per-step loop is
`range(1, num_timesteps)`, so every value appended to the spike stack is a
step index of at least 1; a zero entry therefore always denotes an unused
slot, and masking zero entries in the analysis stage never discards a
genuine spike. -/
theorem trace_log_entries_positive (p : SimParams) (f r : ℕ → ℚ) (T : ℤ) (v : ℕ)
    (hv : v ∈ (simCellTrace p f r T).2) : 1 ≤ v := by
  rcases runSteps_log_mem p f r (pyRange1 T) (initState p) [] v hv with h | h
  · exact absurd h (List.not_mem_nil v)
  · unfold pyRange1 at h
    exact (List.mem_range'_1.mp h).1

theorem trace_log_entries_positive_witness :
    1 ∈ (simCellTrace muDriftParams (fun _ => (0 : ℚ)) (fun _ => (0 : ℚ)) 2).2 ∧ 1 ≤ 1 :=
  ⟨by with_unfolding_all decide,
   trace_log_entries_positive muDriftParams (fun _ => (0 : ℚ)) (fun _ => (0 : ℚ)) 2 1
     (by with_unfolding_all decide)⟩

theorem find_range_aux (p : ℕ → Bool) :
    ∀ (n s i : ℕ), (List.range' s n).find? p = some i →
      p i = true ∧ ∀ j, s ≤ j → j < i → p j = false := by
  intro n
  induction n with
  | zero => intro s i h; simp [List.range'] at h
  | succ n ih =>
      intro s i h
      rw [List.range'] at h
      cases hp : p s
      · rw [List.find?_cons_of_neg _ (by simp [hp])] at h
        have := ih (s + 1) i h
        refine ⟨this.1, fun j hj1 hj2 => ?_⟩
        rcases Nat.eq_or_lt_of_le hj1 with rfl | hlt
        · exact hp
        · exact this.2 j hlt hj2
      · rw [List.find?_cons_of_pos _ hp] at h
        obtain rfl : s = i := by simpa using h
        exact ⟨hp, fun j hj1 hj2 => absurd (Nat.lt_of_le_of_lt hj1 hj2) (Nat.lt_irrefl s)⟩

set_option maxRecDepth 40000 in
/-- C3 counterexample: on a run where one cell spiked at steps 100, 200 and
300, the analysis stage's truncation index is 3 — the first SLICE index
along the stack's capacity axis at which all cells hold zero — whereas the
first time-step index at which all cells report zero further spikes is 301.
The valid span used for analysis is therefore not a time-step index. -/
theorem truncation_index_is_slot_not_timestep :
    truncationIndex stack_height [[100, 200, 300]] = some 3 ∧
    firstQuietTimestep [[100, 200, 300]] = some 301 := by
  with_unfolding_all decide

/-- C3 (amended): the valid spike-log span is the first slice index along
the spike stack's third (capacity) axis at which every cell's entry is zero
— the least such index, every earlier slice containing some nonzero entry —
and the stack is truncated to the slices below it before cycle assignment
(see phaseAnalysisQ). -/
theorem truncation_index_first_allzero_slot (H : ℕ) (stack : List (List ℕ)) (i : ℕ)
    (h : truncationIndex H stack = some i) :
    sliceAllZero stack i = true ∧ ∀ j < i, sliceAllZero stack j = false := by
  unfold truncationIndex at h
  rw [List.range_eq_range'] at h
  have hc := find_range_aux (sliceAllZero stack) H 0 i h
  exact ⟨hc.1, fun j hj => hc.2 j (Nat.zero_le j) hj⟩

theorem truncation_index_first_allzero_slot_witness :
    sliceAllZero [[5]] 1 = true :=
  (truncation_index_first_allzero_slot 2 [[5]] 1 (by decide)).1

/-- C4 counterexample: a configuration with a non-positive (negative)
duration and exactly two parameter subsets is not rejected: the pipeline
raises no error and runs the simulation, which executes an empty step loop
and returns an empty spike log.  The only fail-fast validation is the
subset count (and dt = 0 raising ZeroDivisionError at construction). -/
theorem nonpositive_duration_not_rejected :
    ((⟨1, -5, 2⟩ : PipelineCfg).duration ≤ 0) ∧
    runPipelineModel ⟨1, -5, 2⟩ quietParams (fun _ => 0) (fun _ => 0) = Except.ok [] := by
  constructor
  · norm_num
  · with_unfolding_all rfl

/-- C4 (amended): the pipeline fails fast with an error before any
simulation starts exactly when the number of selected parameter subsets
differs from two (explicit Exception in execute_pipeline) or dt = 0
(ZeroDivisionError while computing num_timesteps at construction);
non-positive dt or duration is otherwise not validated. -/
theorem pipeline_failfast_iff (cfg : PipelineCfg) (p : SimParams) (f r : ℕ → ℚ) :
    (∃ e, runPipelineModel cfg p f r = Except.error e) ↔
      (cfg.dt = 0 ∨ cfg.numSubsets ≠ 2) := by
  unfold runPipelineModel
  split_ifs with h1 h2
  · simp [h1]
  · simp [h1, h2]
  · simp [h1, h2]

/-- C5: calling HPC_phi_compute_RMQ with the string selector "all" raises
TypeError — Python evaluates the comparison `num_cycles <= 0` before the
equality with 'all' (src line 1257), and a str/int order comparison raises —
while a numeric selector larger than the available cycle count returns the
clamped all-cycles RMQ array.  The two calls therefore do not return the
same RMQArray, although the source's own comment says negative values and
the literal 'all' both compute RMQ over all cycles. -/
theorem compute_RMQ_all_raises_typeerror :
    HPC_phi_compute_RMQ (NumCyclesArg.str "all") 2 [[1, 2]] =
      Except.error "TypeError: str and int are not comparable" ∧
    HPC_phi_compute_RMQ (NumCyclesArg.int 3) 2 [[1, 2]] = Except.ok [some (-1)] := by
  constructor
  · rfl
  · with_unfolding_all rfl

/-- C6 counterexample: a reference signal whose phase series has no
negative first difference yields no cycle boundaries, and segmentation then
fails (IndexError at `cycle_boundary_indices[0]`, src line 1204, modelled as
`none`) instead of producing a CyclePhaseBlock; the claimed relation between
CycleBoundaries and the block's third dimension does not hold for every
reference signal. -/
theorem phase_analysis_fails_without_boundaries :
    cycleBoundaryIndices [0] = [] ∧
    phaseAnalysisQ (fun _ => 0) "mean" [0] [[0]] 1 = none := by
  constructor
  · rfl
  · with_unfolding_all decide

/-- C6 (amended): whenever segmentation completes (in particular at least
one cycle boundary exists and an all-zero stack slice is found), the
CycleBoundaries sequence is strictly increasing and every cell's row of the
CyclePhaseBlock has length `len(CycleBoundaries) + 1`, i.e. the block's
third dimension C satisfies `len(CycleBoundaries) = C - 1`. -/
theorem cycle_boundaries_sorted_and_block_width
    (kdeFit : List ℚ → ℚ) (tech : String) (phases : List ℚ) (stack : List (List ℕ)) (H : ℕ)
    (block : List (List ℚ)) (bounds : List ℕ)
    (h : phaseAnalysisQ kdeFit tech phases stack H = some (block, bounds)) :
    List.Pairwise (· < ·) bounds ∧ ∀ row ∈ block, row.length = bounds.length + 1 := by
  unfold phaseAnalysisQ at h
  split at h
  · exact absurd h (by simp)
  · split at h
    · exact absurd h (by simp)
    · simp only [Option.some.injEq, Prod.mk.injEq] at h
      obtain ⟨h1, h2⟩ := h
      subst h1; subst h2
      constructor
      · unfold cycleBoundaryIndices
        exact (List.pairwise_lt_range _).filter _
      · intro row hrow
        simp only [List.mem_map] at hrow
        obtain ⟨col, _, rfl⟩ := hrow
        simp

theorem cycle_boundaries_sorted_and_block_width_witness :
    List.Pairwise (fun a b => a < b) ([1] : List ℕ) :=
  (cycle_boundaries_sorted_and_block_width (fun _ => 0) "mean" [0, 1, 0] [[1]] 2
    [[0, 1]] [1] (by with_unfolding_all decide)).1

theorem wrapTwoPi_bounds {x : ℝ} (h1 : -(2 * Real.pi) ≤ x) (h2 : x < 2 * Real.pi) :
    0 ≤ wrapTwoPi x ∧ wrapTwoPi x < 2 * Real.pi := by
  have hpi := Real.pi_pos
  unfold wrapTwoPi
  split_ifs with h <;> constructor <;> linarith

/-- C8: every entry of the instantaneous phase series — atan2 of the
analytic signal shifted into [0, 2pi), rotated by -3pi/2 and re-wrapped —
lies in [0, 2pi). -/
theorem theta_phase_series_range (sig : List ℂ) (x : ℝ)
    (hx : x ∈ thetaPhaseSeries sig) : 0 ≤ x ∧ x < 2 * Real.pi := by
  obtain ⟨z, _, rfl⟩ := List.mem_map.mp hx
  have hpi := Real.pi_pos
  have h1 : -Real.pi < Complex.arg z := Complex.neg_pi_lt_arg z
  have h2 : Complex.arg z ≤ Real.pi := Complex.arg_le_pi z
  unfold phasePreprocess
  have w1 := wrapTwoPi_bounds (x := Complex.arg z) (by linarith) (by linarith)
  exact wrapTwoPi_bounds (by linarith [w1.1]) (by linarith [w1.2])

theorem theta_phase_series_range_witness :
    0 ≤ phasePreprocess (Complex.arg 1) ∧ phasePreprocess (Complex.arg 1) < 2 * Real.pi :=
  theta_phase_series_range [1] (phasePreprocess (Complex.arg 1)) (by simp [thetaPhaseSeries])

/-- C9: the central-tendency selector with technique `mean` on
[0.1, 0.2, 0.3] returns 0.2, and on any single-element input returns the
element itself for every technique selector, including the density-mode
(KDE) technique, which returns the sample without fitting. -/
theorem central_tendency_mean_and_singleton (kdeFit : List ℚ → ℚ) (tech : String) (x : ℚ) :
    centralTendencySelector kdeFit [1/10, 2/10, 3/10] "mean" = 1/5 ∧
    centralTendencySelector kdeFit [x] tech = x := by
  constructor
  · simp only [centralTendencySelector]
    norm_num [listMean]
  · unfold centralTendencySelector
    split_ifs with hA hB hC hD
    · simp [listMean]
    · simp [listMedian, List.insertionSort, List.orderedInsert]
    · rfl
    · simp at hD
    · simp [listMean]
